import Mathlib

/-!
Shallow embedding of the Shard load-generation engine (Go, package
`attack`/`config`/`stats`) and proofs about its specification claims.

Conventions:
* Go `time.Duration` (int64 nanoseconds) is modelled as `Int`.
* Go `time.Time` is modelled as `Int` (nanoseconds since epoch); the
  wall-clock formatting/parsing delegated to the Go standard library is
  kept abstract at the codec level.
* Go maps and `sync.Map` are modelled as functions from keys to values.
* Counters (`int64` incremented by one per request) are modelled as `Nat`
  or `Int`; overflow at 2^63 is unreachable for per-request counters and
  is not modelled.
-/

namespace Shard

/-- `pat` occurs as a contiguous sublist of the second argument. -/
def listInfix (pat : List Char) : List Char → Bool
  | [] => pat.isEmpty
  | c :: rest => pat.isPrefixOf (c :: rest) || listInfix pat rest

/-- `strings.Contains(s, pat)` from the Go standard library: `pat` occurs
as a contiguous substring of `s`. -/
def strContains (s pat : String) : Bool :=
  listInfix pat.toList s.toList

/-- The shape of a Go `error` value as observed by `classifyError`:
whether `os.IsTimeout(err)` reports true, and the text of `err.Error()`. -/
structure GoError where
  isTimeout : Bool
  msg : String
  deriving DecidableEq, Repr

/-- `classifyError` from the runner (the current version, which also
feeds the failing-phase tag): first match over
timeout / "no such host" / "connection refused" or "connect" / "tls" /
"EOF" or "read", defaulting to "other". -/
def classifyError (e : GoError) : String :=
  if e.isTimeout then "timeout"
  else if strContains e.msg "no such host" then "dns"
  else if strContains e.msg "connection refused" || strContains e.msg "connect" then "connect"
  else if strContains e.msg "tls" then "tls"
  else if strContains e.msg "EOF" || strContains e.msg "read" then "ttfb"
  else "other"

/-- The fixed failure taxonomy, in the match order of `classifyError`. -/
def taxonomy : List String :=
  ["timeout", "dns", "connect", "tls", "ttfb", "other"]

/-- The condition `classifyError` tests for each non-default tag, read
off the source's `switch` arms. -/
def tagCond (e : GoError) (tag : String) : Bool :=
  if tag = "timeout" then e.isTimeout
  else if tag = "dns" then strContains e.msg "no such host"
  else if tag = "connect" then
    strContains e.msg "connection refused" || strContains e.msg "connect"
  else if tag = "tls" then strContains e.msg "tls"
  else if tag = "ttfb" then strContains e.msg "EOF" || strContains e.msg "read"
  else false

/-- Spec-side formulation of the taxonomy choice: the first tag of the
ordered taxonomy whose condition holds, defaulting to "other". -/
def firstMatchTag (e : GoError) : String :=
  match ["timeout", "dns", "connect", "tls", "ttfb"].find? (tagCond e) with
  | some t => t
  | none => "other"

/-- Phase timings of one request (`PhaseTimings` in `trace.go`): Go
`time.Duration` fields, i.e. nanosecond counts. -/
structure PhaseTimings where
  dns : Int := 0
  connect : Int := 0
  tls : Int := 0
  ttfb : Int := 0
  total : Int := 0
  deriving DecidableEq, Repr

/-- One per-request record (`Result` in `trace.go`). The timestamp is
nanoseconds since epoch; Go zero values are the field defaults. -/
structure Result where
  timestamp : Int := 0
  code : Int := 0
  error : String := ""
  failPhase : String := ""
  reused : Bool := false
  phases : PhaseTimings := {}
  deriving DecidableEq, Repr

/-- The `httptrace.ClientTrace` callbacks installed by `doRequest`, with
the piece of callback data the code actually inspects: the reuse flag of
`GotConn` and whether `ConnectDone` received a nil error. -/
inductive TraceEvent where
  | gotConn (reused : Bool)
  | dnsStart
  | dnsDone
  | connectStart
  | connectDone (ok : Bool)
  | tlsStart
  | tlsDone
  | gotFirstByte
  deriving DecidableEq, Repr

/-- The state the `doRequest` closures mutate: the `phases` struct and
the `reused` flag (the `total` field is only written after the call). -/
structure TraceState where
  phases : PhaseTimings := {}
  reused : Bool := false
  deriving DecidableEq, Repr

/-- One callback firing at elapsed time `p.2` (the value of
`time.Since(start)` at that moment), updating the closed-over state
exactly as the Go closures do: a start callback stores the elapsed time
in the phase field, the matching done callback replaces it by the
difference, and `ConnectDone` leaves the field alone when it received a
non-nil error. -/
def applyEvent (st : TraceState) (p : TraceEvent × Int) : TraceState :=
  let e := p.2
  match p.1 with
  | .gotConn r => { st with reused := r }
  | .dnsStart => { st with phases := { st.phases with dns := e } }
  | .dnsDone => { st with phases := { st.phases with dns := e - st.phases.dns } }
  | .connectStart => { st with phases := { st.phases with connect := e } }
  | .connectDone ok =>
      if ok then { st with phases := { st.phases with connect := e - st.phases.connect } }
      else st
  | .tlsStart => { st with phases := { st.phases with tls := e } }
  | .tlsDone => { st with phases := { st.phases with tls := e - st.phases.tls } }
  | .gotFirstByte => { st with phases := { st.phases with ttfb := e } }

/-- The closure state after `client.Do` returns, given the chronological
list of callback firings of this request. -/
def runTrace (evs : List (TraceEvent × Int)) : TraceState :=
  evs.foldl applyEvent {}

/-- Outcome of `r.client.Do(req)`: a Go error, or a response with a
status code. -/
inductive CallOutcome where
  | success (code : Int)
  | failure (e : GoError)
  deriving DecidableEq, Repr

/-- `doRequest` from the runner: given the request start time `ts`, the
callback firings `evs`, the measured wall-clock `total`, and the call
outcome, assemble the `Result` as the source does — on failure the
classification is written to both `Error` and `FailPhase` and `Code`
stays 0; on success `Code` is the status code and both tags stay empty. -/
def doRequest (ts : Int) (evs : List (TraceEvent × Int)) (total : Int)
    (o : CallOutcome) : Result :=
  let st := runTrace evs
  let base : Result :=
    { timestamp := ts
      reused := st.reused
      phases := { st.phases with total := total } }
  match o with
  | .failure e =>
      let cls := classifyError e
      { base with error := cls, failPhase := cls }
  | .success code =>
      { base with code := code }

/-- Whether a callback writes the DNS phase field. -/
def touchesDns : TraceEvent → Bool
  | .dnsStart => true
  | .dnsDone => true
  | _ => false

/-- Whether a callback writes (or may write) the connect phase field. -/
def touchesConnect : TraceEvent → Bool
  | .connectStart => true
  | .connectDone _ => true
  | _ => false

/-- Whether a callback writes the TLS phase field. -/
def touchesTls : TraceEvent → Bool
  | .tlsStart => true
  | .tlsDone => true
  | _ => false

/-- Whether a callback writes the TTFB phase field. -/
def touchesTtfb : TraceEvent → Bool
  | .gotFirstByte => true
  | _ => false

/-- A concrete callback trace for instantiating `doRequest` theorems: a
fresh connection resolving DNS, connecting, then getting the first
byte. -/
def sampleTrace : List (TraceEvent × Int) :=
  [(.gotConn false, 0), (.dnsStart, 5), (.dnsDone, 9), (.connectStart, 9),
    (.connectDone true, 15), (.gotFirstByte, 30)]

/-- All four incremental phase fields lie in `[0, M]`. -/
def PhaseBounds (st : TraceState) (M : Int) : Prop :=
  0 ≤ st.phases.dns ∧ st.phases.dns ≤ M ∧
  0 ≤ st.phases.connect ∧ st.phases.connect ≤ M ∧
  0 ≤ st.phases.tls ∧ st.phases.tls ≤ M ∧
  0 ≤ st.phases.ttfb ∧ st.phases.ttfb ≤ M

/-- `StatsCollector` from the runner: `int64` atomic counters and a
`sync.Map` from failing-phase tag to counter, modelled as a total
function that is zero off its stored keys. Field defaults are the Go
zero values of `&StatsCollector{}`. -/
structure StatsCollector where
  sent : Int := 0
  success : Int := 0
  fail : Int := 0
  failMap : String → Int := fun _ => 0
  totalLat : Int := 0
  twoXX : Int := 0
  threeXX : Int := 0
  fourXX : Int := 0
  fiveXX : Int := 0

/-- The millisecond latency the collector accumulates for a Result:
`r.Phases.Total.Milliseconds()`, i.e. the nanosecond total divided by
10^6 with Go's truncated integer division. -/
def latencyMs (r : Result) : Int :=
  r.phases.total.div 1000000

/-- `StatsCollector.Add`: count the result as sent; on failure count the
failing-phase tag, on success accumulate the millisecond latency and the
status family of a positive code. -/
def StatsCollector.Add (s : StatsCollector) (r : Result) : StatsCollector :=
  let s := { s with sent := s.sent + 1 }
  if r.error ≠ "" then
    { s with
      fail := s.fail + 1
      failMap := fun k => if k = r.failPhase then s.failMap k + 1 else s.failMap k }
  else
    let s := { s with
      success := s.success + 1
      totalLat := s.totalLat + latencyMs r }
    if r.code > 0 then
      if r.code.div 100 = 2 then { s with twoXX := s.twoXX + 1 }
      else if r.code.div 100 = 3 then { s with threeXX := s.threeXX + 1 }
      else if r.code.div 100 = 4 then { s with fourXX := s.fourXX + 1 }
      else if r.code.div 100 = 5 then { s with fiveXX := s.fiveXX + 1 }
      else s
    else s

/-- The values `StatsCollector.Snapshot` returns: counters, the average
success latency (`float64`, modelled exactly as a rational), the failure
map, and the four status families keyed "2xx".."5xx". -/
structure StatsSnapshot where
  sent : Int
  success : Int
  fail : Int
  avgLat : ℚ
  fails : String → Int
  families : String → Int

/-- `StatsCollector.Snapshot`: reads the counters; the average is
`totalLat / success` when `success > 0` and the zero value otherwise. -/
def StatsCollector.Snapshot (s : StatsCollector) : StatsSnapshot :=
  { sent := s.sent
    success := s.success
    fail := s.fail
    avgLat := if s.success > 0 then (s.totalLat : ℚ) / (s.success : ℚ) else 0
    fails := s.failMap
    families := fun k =>
      if k = "2xx" then s.twoXX
      else if k = "3xx" then s.threeXX
      else if k = "4xx" then s.fourXX
      else if k = "5xx" then s.fiveXX
      else 0 }

/-- Feeding a batch of Results through `Add`, starting from the zero
collector `&StatsCollector{}` that `Run` allocates. -/
def addAll (rs : List Result) : StatsCollector :=
  rs.foldl StatsCollector.Add {}

/-- The successful Results of a batch: those with an empty error field. -/
def successes (rs : List Result) : List Result :=
  rs.filter (fun r => r.error = "")

/-- The fields of `Config` that `Validate` inspects. Whether the two
duration strings parse is abstracted into flags standing for
`time.ParseDuration` succeeding on `load.duration` and `load.timeout`. -/
structure ConfigV where
  url : String
  rate : Int
  concurrency : Int
  durationParses : Bool
  timeoutParses : Bool
  deriving DecidableEq, Repr

/-- `Config.Validate` from the configuration package: the message of the
first failing check, or `none` when the configuration is accepted. -/
def Validate (c : ConfigV) : Option String :=
  if c.url = "" then some "target.url is required"
  else if c.rate ≤ 0 then some "load.rate must be > 0"
  else if c.concurrency ≤ 0 then some "load.concurrency must be > 0"
  else if c.durationParses = false then some "invalid load.duration"
  else if c.timeoutParses = false then some "invalid load.timeout"
  else none

/-- The scheduler interval `Run` computes:
`time.Second / time.Duration(rate)`, the integer division of 10^9
nanoseconds by the configured rate (truncated like Go's `/` on int64). -/
def schedulerInterval (rate : Int) : Int :=
  (1000000000 : Int).div rate

/-- The steps of `Run`'s own goroutine that the orchestration claims
refer to. -/
inductive RunEvent where
  | makeRequest
  | startWorker (id : Nat)
  | openResults (ok : Bool)
  | openProgress (ok : Bool)
  | startSink
  | enqueueTicket (n : Nat)
  | closeWork
  | joinWorkers
  | closeResults
  deriving DecidableEq, Repr

/-- The environment one call of `Run` executes against: the worker
count, whether building the base request and opening each output
succeed, and how many tickets the scheduler loop emits before duration
expiry or cancellation ends it. -/
structure RunEnv where
  concurrency : Nat
  makeRequestOk : Bool
  openResultsOk : Bool
  openProgressOk : Bool
  tickets : Nat
  deriving DecidableEq, Repr

/-- The action trace of `Run`'s goroutine and the error it returns, in
the statement order of the source: build the base request, start
`concurrency` workers, open the results file, open the progress log,
start the sink goroutine, run the scheduler loop (each tick enqueues one
ticket), then close the work channel, join the workers and close the
results channel. An early `return err` cuts the trace at that point.
A request is executed only by a worker that received a ticket, so a
trace without `enqueueTicket` events executes no request. -/
def RunTrace (env : RunEnv) : List RunEvent × Option String :=
  if env.makeRequestOk = false then ([.makeRequest], some "make request")
  else
    let workers := (List.range env.concurrency).map RunEvent.startWorker
    if env.openResultsOk = false then
      ([.makeRequest] ++ workers ++ [.openResults false], some "open output")
    else if env.openProgressOk = false then
      ([.makeRequest] ++ workers ++ [.openResults true, .openProgress false],
        some "open progress log")
    else
      ([.makeRequest] ++ workers ++ [.openResults true, .openProgress true, .startSink] ++
        (List.range env.tickets).map RunEvent.enqueueTicket ++
        [.closeWork, .joinWorkers, .closeResults], none)

/-- The shutdown-relevant events of one run: `Run`'s goroutine closes
the work channel, joins the pool, closes the results channel and
returns; each worker exits; the sink goroutine, once the closed results
channel is drained, performs the final snapshot/flush and then writes
the completion line. -/
inductive ShutdownEvent where
  | closeWork
  | workerExit (id : Nat)
  | joinWorkers
  | closeResults
  | runReturn
  | sinkFinalFlush
  | sinkCompleted
  deriving DecidableEq, Repr

/-- Position of an event in a trace (traces of interest contain each
event exactly once). -/
def eventIdx (t : List ShutdownEvent) (e : ShutdownEvent) : Nat :=
  t.indexOf e

/-- Every worker id mentioned in the trace is below the pool size. -/
def workerInRange (n : Nat) : ShutdownEvent → Bool
  | .workerExit i => decide (i < n)
  | _ => true

/-- A linearization of one run's shutdown consistent with the
happens-before edges the source establishes: program order in `Run`
(`close(workCh)`, then `wg.Wait()`, then `close(results)`, then return),
every worker's exit before `wg.Wait()` returns, and the sink's final
flush and completion line after `close(results)` (the sink leaves its
receive loop only once the closed channel is drained). There is no edge
from the sink's final actions to `Run`'s return, because the source has
no synchronization (channel, WaitGroup or otherwise) from the writer
goroutine back to `Run`. -/
def Admissible (n : Nat) (t : List ShutdownEvent) : Prop :=
  t.Nodup ∧
  (ShutdownEvent.closeWork ∈ t ∧ ShutdownEvent.joinWorkers ∈ t ∧
    ShutdownEvent.closeResults ∈ t ∧ ShutdownEvent.runReturn ∈ t ∧
    ShutdownEvent.sinkFinalFlush ∈ t ∧ ShutdownEvent.sinkCompleted ∈ t) ∧
  (∀ i < n, ShutdownEvent.workerExit i ∈ t) ∧
  (∀ e ∈ t, workerInRange n e = true) ∧
  eventIdx t .closeWork < eventIdx t .joinWorkers ∧
  eventIdx t .joinWorkers < eventIdx t .closeResults ∧
  eventIdx t .closeResults < eventIdx t .runReturn ∧
  (∀ i < n, eventIdx t (.workerExit i) < eventIdx t .joinWorkers) ∧
  eventIdx t .closeResults < eventIdx t .sinkFinalFlush ∧
  eventIdx t .sinkFinalFlush < eventIdx t .sinkCompleted

instance (n : Nat) (t : List ShutdownEvent) : Decidable (Admissible n t) := by
  unfold Admissible
  infer_instance

/-- A shutdown linearization this run can exhibit: one worker, and the
sink's final flush happens after `Run` has already returned. -/
def drainTrace : List ShutdownEvent :=
  [.closeWork, .workerExit 0, .joinWorkers, .closeResults, .runReturn,
    .sinkFinalFlush, .sinkCompleted]

/-- A JSON value as `encoding/json` produces for one Result line. A
`time.Time` marshals to an RFC3339Nano string, a rendering injective
down to the nanosecond instant; that string is modelled by the instant
it denotes (`tstamp`). -/
inductive Json where
  | num (n : Int)
  | str (s : String)
  | bool (b : Bool)
  | tstamp (t : Int)
  | obj (fields : List (String × Json))

/-- `json.Marshal` of `PhaseTimings`: five numeric nanosecond fields. -/
def encodePhases (p : PhaseTimings) : Json :=
  .obj [("dns", .num p.dns), ("connect", .num p.connect), ("tls", .num p.tls),
    ("ttfb", .num p.ttfb), ("total", .num p.total)]

/-- `json.Marshal` of a `Result` as the sink's encoder writes it, per
the struct tags in `trace.go`: `ts`, `code`, `error` and `fail_phase`
carrying `omitempty` (dropped when empty), `reused`, and the nested
`phases` object. -/
def encodeResult (r : Result) : Json :=
  .obj ([("ts", .tstamp r.timestamp), ("code", .num r.code)] ++
    (if r.error = "" then [] else [("error", .str r.error)]) ++
    (if r.failPhase = "" then [] else [("fail_phase", .str r.failPhase)]) ++
    [("reused", .bool r.reused), ("phases", encodePhases r.phases)])

/-- Reading a numeric field as `json.Unmarshal` does into an `int64`
target: an absent key keeps the Go zero value, a non-number fails. -/
def getNum (fs : List (String × Json)) (k : String) : Option Int :=
  match fs.lookup k with
  | none => some 0
  | some (.num n) => some n
  | some _ => none

/-- Reading a string field: absent keeps the zero value `""`. -/
def getStrOr (fs : List (String × Json)) (k : String) : Option String :=
  match fs.lookup k with
  | none => some ""
  | some (.str s) => some s
  | some _ => none

/-- Reading a bool field: absent keeps the zero value `false`. -/
def getBoolOr (fs : List (String × Json)) (k : String) : Option Bool :=
  match fs.lookup k with
  | none => some false
  | some (.bool b) => some b
  | some _ => none

/-- Reading the `ts` field: an RFC3339 string parsed back to the
instant; absent keeps the zero time. -/
def getTs (fs : List (String × Json)) (k : String) : Option Int :=
  match fs.lookup k with
  | none => some 0
  | some (.tstamp t) => some t
  | some _ => none

/-- `json.Unmarshal` into `PhaseTimings`. -/
def decodePhases (j : Json) : Option PhaseTimings :=
  match j with
  | .obj fs => do
      let dns ← getNum fs "dns"
      let connect ← getNum fs "connect"
      let tls ← getNum fs "tls"
      let ttfb ← getNum fs "ttfb"
      let total ← getNum fs "total"
      some { dns := dns, connect := connect, tls := tls, ttfb := ttfb, total := total }
  | _ => none

/-- `json.Unmarshal` into `Result`, as the reporting collaborator's
`LoadJSONL` decodes each line. -/
def decodeResult (j : Json) : Option Result :=
  match j with
  | .obj fs => do
      let ts ← getTs fs "ts"
      let code ← getNum fs "code"
      let err ← getStrOr fs "error"
      let fp ← getStrOr fs "fail_phase"
      let reused ← getBoolOr fs "reused"
      let phases ← match fs.lookup "phases" with
        | none => some ({} : PhaseTimings)
        | some pj => decodePhases pj
      some { timestamp := ts, code := code, error := err, failPhase := fp,
             reused := reused, phases := phases }
  | _ => none

/-- Per-phase aggregate of the offline reporting tool (`phaseStats`):
the `float64` values hold sums of `int64` millisecond counts, exactly
representable, so they are modelled as rationals. -/
structure PhaseStatsA where
  count : Nat
  sum : ℚ
  min : ℚ
  max : ℚ
  deriving DecidableEq, Repr

/-- The offline `stats.Aggregator`. Its maps are modelled as total
functions that are zero (or, for `stats`, the `New` initializer) off the
stored keys. -/
structure Aggregator where
  count : Nat
  status : Int → Nat
  errors : String → Nat
  stats : String → PhaseStatsA
  failByPhase : String → Nat
  statusFamily : String → Nat

/-- `stats.New()`: empty maps, each phase entry starting with the large
sentinel minimum `1e9`. -/
def Aggregator.New : Aggregator :=
  { count := 0
    status := fun _ => 0
    errors := fun _ => 0
    stats := fun _ => { count := 0, sum := 0, min := 1000000000, max := 0 }
    failByPhase := fun _ => 0
    statusFamily := fun _ => 0 }

/-- The `update` closure of `Aggregator.Add` on one phase entry. -/
def updatePhase (ps : PhaseStatsA) (ms : ℚ) : PhaseStatsA :=
  { count := ps.count + 1
    sum := ps.sum + ms
    min := if ms < ps.min then ms else ps.min
    max := if ms > ps.max then ms else ps.max }

/-- `fmt.Sprintf("%dxx", fam)` for the families the code counts
(`fam` is only used under the guard `2 ≤ fam ≤ 5`). -/
def famKey (fam : Int) : String :=
  if fam = 2 then "2xx" else if fam = 3 then "3xx"
  else if fam = 4 then "4xx" else "5xx"

/-- `stats.Aggregator.Add` from `aggregator.go`. -/
def Aggregator.Add (a : Aggregator) (r : Result) : Aggregator :=
  let a := { a with count := a.count + 1 }
  let a :=
    if r.code > 0 then
      let a := { a with
        status := fun k => if k = r.code then a.status k + 1 else a.status k }
      let fam := r.code.div 100
      if 2 ≤ fam ∧ fam ≤ 5 then
        { a with statusFamily := fun k =>
            if k = famKey fam then a.statusFamily k + 1 else a.statusFamily k }
      else a
    else a
  let a :=
    if r.error ≠ "" then
      { a with errors := fun k => if k = r.error then a.errors k + 1 else a.errors k }
    else a
  let a :=
    if r.failPhase ≠ "" then
      { a with failByPhase := fun k =>
          if k = r.failPhase then a.failByPhase k + 1 else a.failByPhase k }
    else a
  let upd := fun (a : Aggregator) (phase : String) (d : Int) =>
    { a with stats := fun k =>
        if k = phase then updatePhase (a.stats k) ((d.div 1000000 : Int) : ℚ)
        else a.stats k }
  let a := upd a "dns" r.phases.dns
  let a := upd a "connect" r.phases.connect
  let a := upd a "tls" r.phases.tls
  let a := upd a "ttfb" r.phases.ttfb
  upd a "total" r.phases.total

/-- What one iteration of `LoadJSONL`'s read loop finds on a line:
bytes that `json.Unmarshal` decodes to a Result, or bytes it does not
(a blank line, skipped by the `len(line) > 0` guard, has the same
effect). -/
inductive LineContent where
  | ok (r : Result)
  | bad

/-- One opened file as the read loop consumes it: the lines delivered
before the loop ends, and whether it ends in a clean `io.EOF`
(`readErrOk = true`) or in another read error. -/
structure FileRead where
  lines : List LineContent
  readErrOk : Bool

/-- The result of `os.Open`: failure, or a readable file. -/
inductive FileAccess where
  | openFail
  | opened (f : FileRead)

/-- The loop body of `LoadJSONL` on one line: a decodable line is
`Add`ed, anything else is skipped without touching the aggregator. -/
def consumeLine (a : Aggregator) : LineContent → Aggregator
  | .ok r => a.Add r
  | .bad => a

/-- `Aggregator.LoadJSONL` over the file model: an open failure is
returned as the error; otherwise every delivered line is processed in
order (decodable ones added, the rest skipped), and a non-EOF read
error after the delivered lines is returned while clean EOF yields the
accumulated aggregator. -/
def Aggregator.LoadJSONL (a : Aggregator) : FileAccess → Except String Aggregator
  | .openFail => .error "open"
  | .opened f =>
      let a := f.lines.foldl consumeLine a
      if f.readErrOk then .ok a else .error "read"

/-- Whether an `Except` result is a success. -/
def exceptOk : Except String Aggregator → Bool
  | .ok _ => true
  | .error _ => false

/-- A configuration whose rate makes the scheduler interval round to
zero while every other field is valid. -/
def badRateConfig : ConfigV :=
  { url := "https://example.com", rate := 2000000000, concurrency := 4,
    durationParses := true, timeoutParses := true }

/-- A run environment in which opening the results file fails. -/
def failOpenEnv : RunEnv :=
  { concurrency := 1, makeRequestOk := true, openResultsOk := false,
    openProgressOk := true, tickets := 0 }

end Shard

namespace Shard

/-- Every label `classifyError` can return is one of the six taxonomy
tags, and it agrees with the first-match formulation. -/
theorem classifyError_spec (e : GoError) :
    classifyError e ∈ taxonomy ∧ classifyError e = firstMatchTag e := by
  obtain ⟨t, m⟩ := e
  unfold classifyError firstMatchTag tagCond taxonomy
  cases t <;>
    cases h2 : strContains m "no such host" <;>
    cases h3 : strContains m "connection refused" <;>
    cases h4 : strContains m "connect" <;>
    cases h5 : strContains m "tls" <;>
    cases h6 : strContains m "EOF" <;>
    cases h7 : strContains m "read" <;>
    simp [h2, h3, h4, h5, h6, h7, List.find?]

/-- `classifyError` never returns the empty string. -/
theorem classifyError_ne_empty (e : GoError) : classifyError e ≠ "" := by
  have h := (classifyError_spec e).1
  simp only [taxonomy, List.mem_cons, List.not_mem_nil, or_false] at h
  rcases h with h | h | h | h | h | h <;> rw [h] <;> decide

/-- One callback step keeps the phase fields inside `[0, e]` when they
were inside `[0, M]` and the callback fires at elapsed time `e ≥ M`. -/
theorem applyEvent_bounds (st : TraceState) (M : Int) (ev : TraceEvent) (e : Int)
    (hb : PhaseBounds st M) (he : M ≤ e) : PhaseBounds (applyEvent st (ev, e)) e := by
  obtain ⟨h1, h2, h3, h4, h5, h6, h7, h8⟩ := hb
  cases ev <;> simp only [applyEvent, PhaseBounds] <;> (try split) <;>
    (try dsimp only) <;> omega

/-- Folding a chronologically sorted, lower-bounded list of callback
firings keeps the phase fields non-negative (and bounded by some final
elapsed time). -/
theorem foldl_applyEvent_bounds :
    ∀ (evs : List (TraceEvent × Int)) (st : TraceState) (M : Int),
      PhaseBounds st M →
      (∀ p ∈ evs, M ≤ p.2) →
      List.Pairwise (fun a b : TraceEvent × Int => a.2 ≤ b.2) evs →
      ∃ K, M ≤ K ∧ PhaseBounds (evs.foldl applyEvent st) K := by
  intro evs
  induction evs with
  | nil => exact fun st M hb _ _ => ⟨M, le_refl M, hb⟩
  | cons p tail ih =>
      intro st M hb hmem hpw
      obtain ⟨ev, e⟩ := p
      have he : M ≤ e := hmem (ev, e) (List.mem_cons_self _ _)
      rw [List.pairwise_cons] at hpw
      have hb' : PhaseBounds (applyEvent st (ev, e)) e := applyEvent_bounds st M ev e hb he
      have hmem' : ∀ q ∈ tail, e ≤ q.2 := fun q hq => hpw.1 q hq
      obtain ⟨K, hK1, hK2⟩ := ih (applyEvent st (ev, e)) e hb' hmem' hpw.2
      exact ⟨K, le_trans he hK1, by simpa using hK2⟩

/-- A callback that does not touch the DNS field leaves it unchanged. -/
theorem applyEvent_dns_untouched (st : TraceState) (p : TraceEvent × Int)
    (h : touchesDns p.1 = false) :
    (applyEvent st p).phases.dns = st.phases.dns := by
  obtain ⟨ev, e⟩ := p
  cases ev <;> simp_all [applyEvent, touchesDns] <;> split <;> rfl

/-- A callback that does not touch the connect field leaves it unchanged. -/
theorem applyEvent_connect_untouched (st : TraceState) (p : TraceEvent × Int)
    (h : touchesConnect p.1 = false) :
    (applyEvent st p).phases.connect = st.phases.connect := by
  obtain ⟨ev, e⟩ := p
  cases ev <;> simp_all [applyEvent, touchesConnect]

/-- A callback that does not touch the TLS field leaves it unchanged. -/
theorem applyEvent_tls_untouched (st : TraceState) (p : TraceEvent × Int)
    (h : touchesTls p.1 = false) :
    (applyEvent st p).phases.tls = st.phases.tls := by
  obtain ⟨ev, e⟩ := p
  cases ev <;> simp_all [applyEvent, touchesTls] <;> split <;> rfl

/-- A callback that does not touch the TTFB field leaves it unchanged. -/
theorem applyEvent_ttfb_untouched (st : TraceState) (p : TraceEvent × Int)
    (h : touchesTtfb p.1 = false) :
    (applyEvent st p).phases.ttfb = st.phases.ttfb := by
  obtain ⟨ev, e⟩ := p
  cases ev <;> simp_all [applyEvent, touchesTtfb] <;> split <;> rfl

/-- Folding a list of callbacks none of which touches the DNS field
leaves it unchanged. -/
theorem foldl_dns_untouched :
    ∀ (evs : List (TraceEvent × Int)) (st : TraceState),
      (∀ p ∈ evs, touchesDns p.1 = false) →
      (evs.foldl applyEvent st).phases.dns = st.phases.dns := by
  intro evs
  induction evs with
  | nil => intro st _; rfl
  | cons p tail ih =>
      intro st h
      rw [List.foldl_cons, ih _ (fun q hq => h q (List.mem_cons_of_mem _ hq)),
        applyEvent_dns_untouched st p (h p (List.mem_cons_self _ _))]

/-- Folding a list of callbacks none of which touches the connect field
leaves it unchanged. -/
theorem foldl_connect_untouched :
    ∀ (evs : List (TraceEvent × Int)) (st : TraceState),
      (∀ p ∈ evs, touchesConnect p.1 = false) →
      (evs.foldl applyEvent st).phases.connect = st.phases.connect := by
  intro evs
  induction evs with
  | nil => intro st _; rfl
  | cons p tail ih =>
      intro st h
      rw [List.foldl_cons, ih _ (fun q hq => h q (List.mem_cons_of_mem _ hq)),
        applyEvent_connect_untouched st p (h p (List.mem_cons_self _ _))]

/-- Folding a list of callbacks none of which touches the TLS field
leaves it unchanged. -/
theorem foldl_tls_untouched :
    ∀ (evs : List (TraceEvent × Int)) (st : TraceState),
      (∀ p ∈ evs, touchesTls p.1 = false) →
      (evs.foldl applyEvent st).phases.tls = st.phases.tls := by
  intro evs
  induction evs with
  | nil => intro st _; rfl
  | cons p tail ih =>
      intro st h
      rw [List.foldl_cons, ih _ (fun q hq => h q (List.mem_cons_of_mem _ hq)),
        applyEvent_tls_untouched st p (h p (List.mem_cons_self _ _))]

/-- Folding a list of callbacks none of which touches the TTFB field
leaves it unchanged. -/
theorem foldl_ttfb_untouched :
    ∀ (evs : List (TraceEvent × Int)) (st : TraceState),
      (∀ p ∈ evs, touchesTtfb p.1 = false) →
      (evs.foldl applyEvent st).phases.ttfb = st.phases.ttfb := by
  intro evs
  induction evs with
  | nil => intro st _; rfl
  | cons p tail ih =>
      intro st h
      rw [List.foldl_cons, ih _ (fun q hq => h q (List.mem_cons_of_mem _ hq)),
        applyEvent_ttfb_untouched st p (h p (List.mem_cons_self _ _))]

/-- The phase struct of a `doRequest` Result is the trace outcome with
the total overwritten, in both outcome branches. -/
theorem doRequest_phases (ts : Int) (evs : List (TraceEvent × Int)) (total : Int)
    (o : CallOutcome) :
    (doRequest ts evs total o).phases = { (runTrace evs).phases with total := total } := by
  cases o <;> rfl

end Shard

/-- C6: `classifyError` always returns exactly one of the six tags
{timeout, dns, connect, tls, ttfb, other}, and the returned tag is the
first one (in that order) whose condition holds, with `other` as the
default — so the choice is mutually exclusive by first match. -/
theorem c6_classifyError_first_match (e : Shard.GoError) :
    Shard.classifyError e ∈ Shard.taxonomy ∧
    Shard.classifyError e = Shard.firstMatchTag e :=
  Shard.classifyError_spec e

/-- C1: for every Result `doRequest` produces, exactly one of the two
cases holds: both the error field and the failing-phase tag are empty
(success), or both are non-empty and the failing-phase tag equals the
error classification. In particular a failure outcome always yields a
non-empty fail_phase. -/
theorem c1_error_failPhase_dichotomy (ts : Int) (evs : List (Shard.TraceEvent × Int))
    (total : Int) (o : Shard.CallOutcome) :
    let r := Shard.doRequest ts evs total o
    (((r.error = "" ∧ r.failPhase = "") ∨
        (r.error ≠ "" ∧ r.failPhase ≠ "" ∧ r.failPhase = r.error)) ∧
      ¬((r.error = "" ∧ r.failPhase = "") ∧
        (r.error ≠ "" ∧ r.failPhase ≠ "" ∧ r.failPhase = r.error))) ∧
    (∀ e, o = .failure e → r.failPhase ≠ "") := by
  cases o with
  | success code =>
      refine ⟨⟨Or.inl ⟨rfl, rfl⟩, ?_⟩, ?_⟩
      · rintro ⟨⟨h, -⟩, ⟨h', -⟩⟩; exact h' h
      · intro e he; cases he
  | failure e =>
      refine ⟨⟨Or.inr ⟨Shard.classifyError_ne_empty e, Shard.classifyError_ne_empty e, rfl⟩, ?_⟩, ?_⟩
      · rintro ⟨⟨h, -⟩, ⟨h', -⟩⟩; exact h' h
      · intro e' he'
        exact Shard.classifyError_ne_empty e

/-- C9: every phase duration of a Result produced by `doRequest` is
non-negative, given that the callback elapsed times are non-negative and
chronological and the measured total is non-negative (the monotonic
clock guarantees of `time.Since`); and every phase none of whose
instrumentation callbacks fired for this request is recorded as exactly
zero. -/
theorem c9_phases_nonneg_untouched_zero (ts : Int)
    (evs : List (Shard.TraceEvent × Int)) (total : Int) (o : Shard.CallOutcome)
    (htot : 0 ≤ total)
    (hmem : ∀ p ∈ evs, (0 : Int) ≤ p.2)
    (hsort : List.Pairwise (fun a b : Shard.TraceEvent × Int => a.2 ≤ b.2) evs) :
    (0 ≤ (Shard.doRequest ts evs total o).phases.dns ∧
      0 ≤ (Shard.doRequest ts evs total o).phases.connect ∧
      0 ≤ (Shard.doRequest ts evs total o).phases.tls ∧
      0 ≤ (Shard.doRequest ts evs total o).phases.ttfb ∧
      0 ≤ (Shard.doRequest ts evs total o).phases.total) ∧
    ((∀ p ∈ evs, Shard.touchesDns p.1 = false) →
      (Shard.doRequest ts evs total o).phases.dns = 0) ∧
    ((∀ p ∈ evs, Shard.touchesConnect p.1 = false) →
      (Shard.doRequest ts evs total o).phases.connect = 0) ∧
    ((∀ p ∈ evs, Shard.touchesTls p.1 = false) →
      (Shard.doRequest ts evs total o).phases.tls = 0) ∧
    ((∀ p ∈ evs, Shard.touchesTtfb p.1 = false) →
      (Shard.doRequest ts evs total o).phases.ttfb = 0) := by
  have hzero : Shard.PhaseBounds {} 0 := by
    refine ⟨le_refl 0, le_refl 0, le_refl 0, le_refl 0, le_refl 0, le_refl 0, le_refl 0, le_refl 0⟩
  obtain ⟨K, -, hb⟩ := Shard.foldl_applyEvent_bounds evs {} 0 hzero hmem hsort
  obtain ⟨b1, -, b2, -, b3, -, b4, -⟩ := hb
  rw [show evs.foldl Shard.applyEvent {} = Shard.runTrace evs from rfl] at b1 b2 b3 b4
  refine ⟨?_, ?_, ?_, ?_, ?_⟩ <;> rw [Shard.doRequest_phases]
  · exact ⟨b1, b2, b3, b4, htot⟩
  · intro h
    show (Shard.runTrace evs).phases.dns = 0
    exact Shard.foldl_dns_untouched evs {} h
  · intro h
    show (Shard.runTrace evs).phases.connect = 0
    exact Shard.foldl_connect_untouched evs {} h
  · intro h
    show (Shard.runTrace evs).phases.tls = 0
    exact Shard.foldl_tls_untouched evs {} h
  · intro h
    show (Shard.runTrace evs).phases.ttfb = 0
    exact Shard.foldl_ttfb_untouched evs {} h

/-- Witness for C9: the hypotheses hold and the conclusion follows at
the concrete trace `sampleTrace` with total 40 and a 200 response. -/
theorem c9_phases_witness :
    ((0 : Int) ≤ 40 ∧ (∀ p ∈ Shard.sampleTrace, (0 : Int) ≤ p.2) ∧
      List.Pairwise (fun a b : Shard.TraceEvent × Int => a.2 ≤ b.2) Shard.sampleTrace) ∧
    ((0 ≤ (Shard.doRequest 0 Shard.sampleTrace 40 (.success 200)).phases.dns ∧
      0 ≤ (Shard.doRequest 0 Shard.sampleTrace 40 (.success 200)).phases.connect ∧
      0 ≤ (Shard.doRequest 0 Shard.sampleTrace 40 (.success 200)).phases.tls ∧
      0 ≤ (Shard.doRequest 0 Shard.sampleTrace 40 (.success 200)).phases.ttfb ∧
      0 ≤ (Shard.doRequest 0 Shard.sampleTrace 40 (.success 200)).phases.total) ∧
    ((∀ p ∈ Shard.sampleTrace, Shard.touchesDns p.1 = false) →
      (Shard.doRequest 0 Shard.sampleTrace 40 (.success 200)).phases.dns = 0) ∧
    ((∀ p ∈ Shard.sampleTrace, Shard.touchesConnect p.1 = false) →
      (Shard.doRequest 0 Shard.sampleTrace 40 (.success 200)).phases.connect = 0) ∧
    ((∀ p ∈ Shard.sampleTrace, Shard.touchesTls p.1 = false) →
      (Shard.doRequest 0 Shard.sampleTrace 40 (.success 200)).phases.tls = 0) ∧
    ((∀ p ∈ Shard.sampleTrace, Shard.touchesTtfb p.1 = false) →
      (Shard.doRequest 0 Shard.sampleTrace 40 (.success 200)).phases.ttfb = 0)) :=
  ⟨⟨by decide, by decide, by decide⟩,
    c9_phases_nonneg_untouched_zero 0 Shard.sampleTrace 40 (.success 200)
      (by decide) (by decide) (by decide)⟩

namespace Shard

/-- `Add` always increments the sent counter by exactly one. -/
theorem Add_sent (s : StatsCollector) (r : Result) :
    (s.Add r).sent = s.sent + 1 := by
  unfold StatsCollector.Add
  by_cases h : r.error = "" <;> simp [h] <;> split_ifs <;> rfl

/-- `Add` increments the success counter exactly on an empty error. -/
theorem Add_success (s : StatsCollector) (r : Result) :
    (s.Add r).success = s.success + (if r.error = "" then 1 else 0) := by
  unfold StatsCollector.Add
  by_cases h : r.error = "" <;> simp [h] <;> split_ifs <;> rfl

/-- `Add` increments the failure counter exactly on a non-empty error. -/
theorem Add_fail (s : StatsCollector) (r : Result) :
    (s.Add r).fail = s.fail + (if r.error = "" then 0 else 1) := by
  unfold StatsCollector.Add
  by_cases h : r.error = "" <;> simp [h] <;> split_ifs <;> rfl

/-- `Add` accumulates the millisecond latency exactly on success. -/
theorem Add_totalLat (s : StatsCollector) (r : Result) :
    (s.Add r).totalLat = s.totalLat + (if r.error = "" then latencyMs r else 0) := by
  unfold StatsCollector.Add
  by_cases h : r.error = "" <;> simp [h] <;> split_ifs <;> rfl

/-- Folding `Add` over a batch adds the number of successes to the
success counter and their millisecond latencies to the latency sum. -/
theorem foldl_Add_success_totalLat :
    ∀ (rs : List Result) (s : StatsCollector),
      (rs.foldl StatsCollector.Add s).success =
        s.success + ((successes rs).length : Int) ∧
      (rs.foldl StatsCollector.Add s).totalLat =
        s.totalLat + ((successes rs).map latencyMs).sum := by
  intro rs
  induction rs with
  | nil => intro s; simp [successes]
  | cons r tail ih =>
      intro s
      obtain ⟨ih1, ih2⟩ := ih (s.Add r)
      rw [List.foldl_cons]
      by_cases h : r.error = ""
      · constructor
        · rw [ih1, Add_success, if_pos h]
          simp [successes, h]
          omega
        · rw [ih2, Add_totalLat, if_pos h]
          simp [successes, h]
          ring
      · constructor
        · rw [ih1, Add_success, if_neg h]
          simp [successes, h]
        · rw [ih2, Add_totalLat, if_neg h]
          simp [successes, h]

/-- Folding `Add` preserves the counter equation. -/
theorem foldl_Add_counter_eq :
    ∀ (rs : List Result) (s : StatsCollector),
      s.sent = s.success + s.fail →
      (rs.foldl StatsCollector.Add s).sent =
        (rs.foldl StatsCollector.Add s).success + (rs.foldl StatsCollector.Add s).fail := by
  intro rs
  induction rs with
  | nil => intro s h; exact h
  | cons r tail ih =>
      intro s h
      rw [List.foldl_cons]
      refine ih (s.Add r) ?_
      rw [Add_sent, Add_success, Add_fail]
      by_cases hr : r.error = "" <;> simp [hr] <;> omega

end Shard

/-- C5: each `Add` increments sent by one and exactly one of success or
failure by one, so for every batch of Results fed to the live collector
the counter equation sent = success + failure holds after every `Add`
(every prefix of a run is itself such a batch), hence at completion. -/
theorem c5_sent_eq_success_add_fail :
    (∀ (s : Shard.StatsCollector) (r : Shard.Result),
      (s.Add r).sent = s.sent + 1 ∧
      (s.Add r).success = s.success + (if r.error = "" then 1 else 0) ∧
      (s.Add r).fail = s.fail + (if r.error = "" then 0 else 1)) ∧
    (∀ rs : List Shard.Result,
      (Shard.addAll rs).sent = (Shard.addAll rs).success + (Shard.addAll rs).fail) :=
  ⟨fun s r => ⟨Shard.Add_sent s r, Shard.Add_success s r, Shard.Add_fail s r⟩,
    fun rs => Shard.foldl_Add_counter_eq rs {} rfl⟩

/-- C7: the average latency `Snapshot` reports over any batch is the sum
of the recorded Total latencies of the successful Results divided by the
success count, and zero when there is no success; failed Results
contribute nothing to the sum. -/
theorem c7_snapshot_average (rs : List Shard.Result) :
    (Shard.addAll rs).Snapshot.avgLat =
      if (Shard.successes rs).length = 0 then 0
      else (((Shard.successes rs).map Shard.latencyMs).sum : ℚ) /
        ((Shard.successes rs).length : ℚ) := by
  obtain ⟨h1, h2⟩ := Shard.foldl_Add_success_totalLat rs {}
  have hz : ({} : Shard.StatsCollector).success = 0 := rfl
  have hz2 : ({} : Shard.StatsCollector).totalLat = 0 := rfl
  rw [hz, zero_add] at h1
  rw [hz2, zero_add] at h2
  show (if (Shard.addAll rs).success > 0
      then ((Shard.addAll rs).totalLat : ℚ) / ((Shard.addAll rs).success : ℚ) else 0) = _
  rw [show Shard.addAll rs = rs.foldl Shard.StatsCollector.Add {} from rfl, h1, h2]
  by_cases h : (Shard.successes rs).length = 0
  · simp [h]
  · have hpos : (0 : Int) < ((Shard.successes rs).length : Int) := by
      exact_mod_cast Nat.pos_of_ne_zero h
    rw [if_pos hpos, if_neg h]
    push_cast
    ring

/-- C4 counterexample: the configuration with rate 2·10^9 (and otherwise
valid fields) makes the computed scheduler interval round to zero, yet
`Validate` accepts it — the validator does not reject such rates. -/
theorem c4_counterexample :
    Shard.schedulerInterval Shard.badRateConfig.rate = 0 ∧
    Shard.Validate Shard.badRateConfig = none := by
  constructor
  · decide
  · decide

/-- C4 amended: `Validate` accepts a configuration exactly when the url
is non-empty, rate and concurrency are positive and both duration
strings parse — in particular it rejects every rate ≤ 0, but it performs
no check tied to the computed scheduler interval, so rates above 10^9
(interval rounding to zero) pass validation. -/
theorem c4_validate_accepts_iff (c : Shard.ConfigV) :
    Shard.Validate c = none ↔
      (c.url ≠ "" ∧ 0 < c.rate ∧ 0 < c.concurrency ∧
        c.durationParses = true ∧ c.timeoutParses = true) := by
  unfold Shard.Validate
  split_ifs <;> simp_all <;> omega

/-- C2 counterexample: when opening the results file fails, `Run`
returns the open error, but a worker has already been started before the
open was attempted — the run is not aborted before any worker starts. -/
theorem c2_counterexample :
    (Shard.RunTrace Shard.failOpenEnv).2 = some "open output" ∧
    Shard.RunEvent.startWorker 0 ∈ (Shard.RunTrace Shard.failOpenEnv).1 := by
  constructor
  · decide
  · decide

/-- C2 amended: if opening either output destination fails, `Run`
returns an error and no ticket has been enqueued — hence no request is
executed — although the workers have already been spawned (worker
startup precedes the open calls in the source). -/
theorem c2_amended_open_failure_no_request (env : Shard.RunEnv)
    (h : env.openResultsOk = false ∨ env.openProgressOk = false) :
    (Shard.RunTrace env).2.isSome = true ∧
    ∀ n, Shard.RunEvent.enqueueTicket n ∉ (Shard.RunTrace env).1 := by
  cases hm : env.makeRequestOk <;> cases h1 : env.openResultsOk <;>
    cases h2 : env.openProgressOk <;>
    simp_all [Shard.RunTrace]

/-- Witness for C2 amended at a concrete environment whose results-file
open fails. -/
theorem c2_amended_witness :
    (Shard.failOpenEnv.openResultsOk = false ∨
      Shard.failOpenEnv.openProgressOk = false) ∧
    ((Shard.RunTrace Shard.failOpenEnv).2.isSome = true ∧
      ∀ n, Shard.RunEvent.enqueueTicket n ∉ (Shard.RunTrace Shard.failOpenEnv).1) :=
  ⟨Or.inl rfl, c2_amended_open_failure_no_request Shard.failOpenEnv (Or.inl rfl)⟩

/-- C3 counterexample: an admissible shutdown linearization in which
`Run` returns before the sink's final snapshot/flush — nothing in the
source makes the run's termination wait for the final flush. -/
theorem c3_counterexample :
    Shard.Admissible 1 Shard.drainTrace ∧
    Shard.eventIdx Shard.drainTrace .runReturn <
      Shard.eventIdx Shard.drainTrace .sinkFinalFlush := by
  constructor
  · decide
  · decide

/-- C3 amended: in every admissible shutdown linearization `Run` returns
only after every worker has exited and the pool join precedes closing
the results channel; it does not wait for the sink's final flush, which
may occur after the return. -/
theorem c3_amended_return_after_workers (n : Nat) (t : List Shard.ShutdownEvent)
    (h : Shard.Admissible n t) :
    (∀ i < n, Shard.eventIdx t (.workerExit i) < Shard.eventIdx t .runReturn) ∧
    Shard.eventIdx t .joinWorkers < Shard.eventIdx t .closeResults ∧
    Shard.eventIdx t .closeResults < Shard.eventIdx t .runReturn := by
  obtain ⟨-, -, -, -, -, hjwcr, hcrrr, hwe, -, -⟩ := h
  exact ⟨fun i hi => lt_trans (lt_trans (hwe i hi) hjwcr) hcrrr, hjwcr, hcrrr⟩

/-- Witness for C3 amended at the concrete linearization `drainTrace`. -/
theorem c3_amended_witness :
    Shard.Admissible 1 Shard.drainTrace ∧
    ((∀ i < 1, Shard.eventIdx Shard.drainTrace (.workerExit i) <
        Shard.eventIdx Shard.drainTrace .runReturn) ∧
      Shard.eventIdx Shard.drainTrace .joinWorkers <
        Shard.eventIdx Shard.drainTrace .closeResults ∧
      Shard.eventIdx Shard.drainTrace .closeResults <
        Shard.eventIdx Shard.drainTrace .runReturn) :=
  ⟨by decide, c3_amended_return_after_workers 1 Shard.drainTrace (by decide)⟩

/-- C8: serializing any Result to its JSON line and re-parsing it with
the reporting collaborator's decoder reproduces the Result exactly — the
round trip is lossless for the declared schema, including the omitted
empty `error`/`fail_phase` fields. -/
theorem c8_result_roundtrip (r : Shard.Result) :
    Shard.decodeResult (Shard.encodeResult r) = some r := by
  obtain ⟨ts, code, err, fp, reu, ph⟩ := r
  obtain ⟨d, cn, tl, tb, tt⟩ := ph
  by_cases h1 : err = "" <;> by_cases h2 : fp = "" <;>
    simp [Shard.encodeResult, Shard.decodeResult, Shard.encodePhases, Shard.decodePhases,
      Shard.getNum, Shard.getStrOr, Shard.getBoolOr, Shard.getTs, List.lookup, h1, h2]

/-- C10: `LoadJSONL` silently skips every line that fails to decode (the
aggregator is exactly what the remaining lines produce, so no counter
changes), returns the accumulated aggregator on clean EOF, and returns
an error exactly when opening or reading the file fails — never because
of malformed line content. -/
theorem c10_loadJSONL_error_only_on_io :
    (∀ (a : Shard.Aggregator) (pre post : List Shard.LineContent) (eOk : Bool),
      Shard.Aggregator.LoadJSONL a
          (.opened { lines := pre ++ .bad :: post, readErrOk := eOk }) =
        Shard.Aggregator.LoadJSONL a (.opened { lines := pre ++ post, readErrOk := eOk })) ∧
    (∀ (a : Shard.Aggregator) (lines : List Shard.LineContent),
      Shard.Aggregator.LoadJSONL a (.opened { lines := lines, readErrOk := true }) =
        .ok (lines.foldl Shard.consumeLine a)) ∧
    (∀ (a : Shard.Aggregator) (f : Shard.FileRead),
      Shard.exceptOk (Shard.Aggregator.LoadJSONL a (.opened f)) = f.readErrOk) ∧
    (∀ a : Shard.Aggregator, Shard.exceptOk (Shard.Aggregator.LoadJSONL a .openFail) = false) := by
  refine ⟨?_, ?_, ?_, ?_⟩
  · intro a pre post eOk
    simp [Shard.Aggregator.LoadJSONL, List.foldl_append, Shard.consumeLine]
  · intro a lines
    rfl
  · intro a f
    cases hf : f.readErrOk <;>
      simp [Shard.Aggregator.LoadJSONL, Shard.exceptOk, hf]
  · intro a
    rfl

/-- Witness for C1 at a concrete failing call: a timeout failure yields
a non-empty fail_phase. -/
theorem c1_witness :
    (Shard.doRequest 0 [] 7 (.failure { isTimeout := true, msg := "deadline" })).failPhase ≠ "" :=
  (c1_error_failPhase_dichotomy 0 [] 7
      (.failure { isTimeout := true, msg := "deadline" })).2
    { isTimeout := true, msg := "deadline" } rfl
